import Mathlib

/-!
Verification of the target-selection and predictive-aiming subsystem of a
space-combat game prototype (`src/aiming.rs`, `src/gun.rs`, and the fire
thresholds of `src/turret.rs` / `src/drone.rs`).

The `f32` arithmetic of the source is modelled by `SF`: exact rationals
extended with the IEEE-754 special values `+∞`, `-∞` and `NaN`.  Rounding is
not modelled (rationals are exact); the special-value propagation rules of
IEEE-754 that the claims hinge on (division by zero, `0 * ∞ = NaN`,
comparisons with `NaN` being false) are modelled exactly.  `f32::sqrt` has no
exact rational counterpart, so every function that needs it takes an explicit
square-root oracle `sqrtF : SF → SF`; theorems state their assumptions about
the oracle, and concrete instances use values at which the square root is
exact (perfect squares), where real `f32` code computes the same numbers.
-/

/-- Model of `f32` values: finite (exact rational, rounding ignored), the two
infinities, and `NaN`.  The sign of zero is not modelled (a single zero). -/
inductive SF where
  | num : ℚ → SF
  | pinf : SF
  | ninf : SF
  | nan : SF
deriving DecidableEq, Repr

namespace SF

/-- IEEE-754 addition on `SF` (exact, no rounding). -/
def add : SF → SF → SF
  | nan, _ => nan
  | _, nan => nan
  | num a, num b => num (a + b)
  | num _, pinf => pinf
  | pinf, num _ => pinf
  | num _, ninf => ninf
  | ninf, num _ => ninf
  | pinf, pinf => pinf
  | ninf, ninf => ninf
  | pinf, ninf => nan
  | ninf, pinf => nan

/-- IEEE-754 negation on `SF`. -/
def neg : SF → SF
  | num a => num (-a)
  | pinf => ninf
  | ninf => pinf
  | nan => nan

/-- IEEE-754 subtraction on `SF`. -/
def sub (a b : SF) : SF := add a (neg b)

/-- IEEE-754 multiplication on `SF`: `0 * ±∞ = NaN`, signs propagate. -/
def mul : SF → SF → SF
  | nan, _ => nan
  | _, nan => nan
  | num a, num b => num (a * b)
  | num a, pinf => if a = 0 then nan else if 0 < a then pinf else ninf
  | pinf, num a => if a = 0 then nan else if 0 < a then pinf else ninf
  | num a, ninf => if a = 0 then nan else if 0 < a then ninf else pinf
  | ninf, num a => if a = 0 then nan else if 0 < a then ninf else pinf
  | pinf, pinf => pinf
  | ninf, ninf => pinf
  | pinf, ninf => ninf
  | ninf, pinf => ninf

/-- IEEE-754 division on `SF`: `x/0 = ±∞` for `x ≠ 0`, `0/0 = NaN`,
`∞/∞ = NaN` (the source never produces a negative zero denominator at the
points of interest, so `0` is treated as `+0`). -/
def div : SF → SF → SF
  | nan, _ => nan
  | _, nan => nan
  | num a, num b =>
      if b = 0 then (if a = 0 then nan else if 0 < a then pinf else ninf)
      else num (a / b)
  | num _, pinf => num 0
  | num _, ninf => num 0
  | pinf, num b => if 0 ≤ b then pinf else ninf
  | ninf, num b => if 0 ≤ b then ninf else pinf
  | pinf, pinf => nan
  | pinf, ninf => nan
  | ninf, pinf => nan
  | ninf, ninf => nan

/-- Model of `f32::recip`: `1.0 / self` (so `recip 0 = +∞`). -/
def recip (a : SF) : SF := div (num 1) a

/-- IEEE-754 `<`: any comparison involving `NaN` is false. -/
def lt : SF → SF → Bool
  | nan, _ => false
  | _, nan => false
  | num a, num b => decide (a < b)
  | num _, pinf => true
  | pinf, num _ => false
  | ninf, num _ => true
  | num _, ninf => false
  | ninf, pinf => true
  | pinf, ninf => false
  | pinf, pinf => false
  | ninf, ninf => false

/-- IEEE-754 `<=`: any comparison involving `NaN` is false. -/
def le : SF → SF → Bool
  | nan, _ => false
  | _, nan => false
  | num a, num b => decide (a ≤ b)
  | num _, pinf => true
  | pinf, num _ => false
  | ninf, num _ => true
  | num _, ninf => false
  | ninf, pinf => true
  | pinf, ninf => false
  | pinf, pinf => true
  | ninf, ninf => true

/-- Model of `f32::min`: if one argument is `NaN`, the other is returned. -/
def fmin (a b : SF) : SF :=
  match a, b with
  | nan, y => y
  | x, nan => x
  | x, y => if lt x y then x else y

/-- Rust `as i32` cast from `f32`: truncation toward zero, saturating at the
`i32` bounds, `NaN ↦ 0`. -/
def toI32 : SF → Int
  | num q => max (-(2 ^ 31)) (min (2 ^ 31 - 1) (if 0 ≤ q then ⌊q⌋ else -⌊-q⌋))
  | pinf => 2 ^ 31 - 1
  | ninf => -(2 ^ 31)
  | nan => 0

/-- True exactly when `a` is finite. -/
def isFinite : SF → Bool
  | num _ => true
  | _ => false

end SF

/-- Model of `glam::Vec3` over the `SF` float model. -/
structure V3 where
  x : SF
  y : SF
  z : SF
deriving DecidableEq, Repr

namespace V3

/-- Model of `Vec3::ZERO` / `Velocity::default().linvel`. -/
def zero : V3 := ⟨SF.num 0, SF.num 0, SF.num 0⟩

/-- Componentwise vector addition. -/
def add (a b : V3) : V3 := ⟨a.x.add b.x, a.y.add b.y, a.z.add b.z⟩

/-- Componentwise vector subtraction. -/
def sub (a b : V3) : V3 := ⟨a.x.sub b.x, a.y.sub b.y, a.z.sub b.z⟩

/-- Model of `Vec3 * f32`: componentwise scaling. -/
def smul (a : V3) (s : SF) : V3 := ⟨a.x.mul s, a.y.mul s, a.z.mul s⟩

/-- Model of `Vec3::dot`: `a.x*b.x + a.y*b.y + a.z*b.z`. -/
def dot (a b : V3) : SF :=
  ((a.x.mul b.x).add (a.y.mul b.y)).add (a.z.mul b.z)

/-- Model of `Vec3::length_squared`: `self.dot(self)`. -/
def length_squared (a : V3) : SF := a.dot a

/-- Model of `Vec3::length`: square root of the squared length, through the oracle. -/
def length (sqrtF : SF → SF) (a : V3) : SF := sqrtF a.length_squared

/-- All three components are finite. -/
def isFinite (a : V3) : Bool := a.x.isFinite && a.y.isFinite && a.z.isFinite

end V3

/-- The `time` computation of `aiming_vector` (src/aiming.rs lines 21-50):
solves the interception-time quadratic for projectile speed 100, picking the
smallest positive root and falling back to `0.0`.  `sqrtF` stands for
`f32::sqrt`, applied to the discriminant. -/
def interceptTime (sqrtF : SF → SF) (to_target relative_vel : V3) : SF :=
  let projectile_speed : SF := SF.num 100
  let squared_speed_diff :=
    (projectile_speed.mul projectile_speed).sub relative_vel.length_squared
  let squared_distance := to_target.length_squared
  let b := to_target.dot relative_vel
  let discriminant := (b.mul b).add (squared_speed_diff.mul squared_distance)
  if SF.le (SF.num 0) discriminant then
    let sqrt := sqrtF discriminant
    let first_root := (b.add sqrt).div squared_speed_diff
    let second_root := (b.sub sqrt).div squared_speed_diff
    if SF.lt (SF.num 0) first_root && SF.lt (SF.num 0) second_root then
      SF.fmin first_root second_root
    else if SF.lt (SF.num 0) first_root then first_root
    else if SF.lt (SF.num 0) second_root then second_root
    else SF.num 0
  else SF.num 0

/-- Definition of `aiming_vector` (src/aiming.rs lines 19-53): returns
`to_target + relative_vel * time`. -/
def aiming_vector (sqrtF : SF → SF) (origin target_pos relative_vel : V3) : V3 :=
  let to_target := V3.sub target_pos origin
  V3.add to_target (relative_vel.smul (interceptTime sqrtF to_target relative_vel))

/-- Square-root oracle used by the concrete evaluations in this file: exact on
the perfect squares that actually occur there (where `f32::sqrt` is also
exact), `+∞ ↦ +∞` as in IEEE-754. -/
def sqrtT (q : ℚ) : ℚ :=
  if q = 0 then 0
  else if q = 49 then 7
  else if q = 7225 then 85
  else if q = 490000 then 700
  else if q = 72250000 then 8500
  else if q = 250000 then 500
  else if q = 100000000 then 10000
  else 0

/-- Lift of `sqrtT` to `SF`. -/
def sqrtF0 : SF → SF
  | SF.num q => SF.num (sqrtT q)
  | SF.pinf => SF.pinf
  | _ => SF.nan

/-- Modelled from the spec (§4.1): the interception-time selection policy in
the spec's own words — negative discriminant falls back to `t = 0`; otherwise
among the two roots `(b ± sqrt(discriminant)) / (projectile_speed² - |v|²)`
take the smallest strictly-positive one, the single positive one, or `0` when
neither is positive.  Compared against `interceptTime` for the refinement
claim. -/
def specInterceptTime (sqrtF : SF → SF) (origin target_pos relative_vel : V3) : SF :=
  let projectile_speed : SF := SF.num 100
  let d := V3.sub target_pos origin
  let b := d.dot relative_vel
  let leading :=
    (projectile_speed.mul projectile_speed).sub relative_vel.length_squared
  let discriminant := (b.mul b).add (leading.mul d.length_squared)
  if SF.lt discriminant (SF.num 0) then SF.num 0
  else
    let r1 := (b.add (sqrtF discriminant)).div leading
    let r2 := (b.sub (sqrtF discriminant)).div leading
    if SF.lt (SF.num 0) r1 && SF.lt (SF.num 0) r2 then SF.fmin r1 r2
    else if SF.lt (SF.num 0) r1 then r1
    else if SF.lt (SF.num 0) r2 then r2
    else SF.num 0

/-- Model of `Fraction` (src/aiming.rs lines 13-17): the faction tag. -/
inductive Fraction where
  | Drones : Fraction
  | Turrets : Fraction
deriving DecidableEq, Repr

/-- One row of the `targets` query of `select_target` (src/aiming.rs lines
62-70): an entity (with `Collider`, without `Sensor` — those are query
filters, so every listed candidate satisfies them) together with its
translation, optional velocity and optional faction. -/
structure Candidate where
  entity : ℕ
  pos : V3
  vel : Option V3
  fraction : Option Fraction
deriving DecidableEq, Repr

/-- The faction filter inside `select_target` (src/aiming.rs lines 80-83):
`!matches!((own, target), (Some(own), Some(target)) if own == target)`. -/
def fractionPass (own target : Option Fraction) : Bool :=
  !(match own, target with
    | some a, some b => a == b
    | _, _ => false)

/-- The per-candidate aim vector of `select_target` (src/aiming.rs lines
84-87): `aiming_vector(origin, target.translation, target_vel - own_vel)`
with absent velocities defaulting to zero. -/
def candAim (sqrtF : SF → SF) (origin : V3) (ownVel : Option V3) (c : Candidate) : V3 :=
  aiming_vector sqrtF origin c.pos (V3.sub (c.vel.getD V3.zero) (ownVel.getD V3.zero))

/-- The candidate pool of the scan in `select_target` (src/aiming.rs lines
78-95): faction filter, then map to `(entity, to_target, length_squared)`,
then keep only strictly positive squared distance. -/
def scan_pool (sqrtF : SF → SF) (origin : V3) (ownVel : Option V3)
    (ownFr : Option Fraction) (targets : List Candidate) :
    List (ℕ × V3 × SF) :=
  ((targets.filter fun c => fractionPass ownFr c.fraction).map fun c =>
      let to_target := candAim sqrtF origin ownVel c
      (c.entity, to_target, to_target.length_squared)).filter
    fun x => SF.lt (SF.num 0) x.2.2

/-- The ranking key of the scan (src/aiming.rs lines 98-100):
`(to_target.dot(forward) / squared_distance.sqrt() * 100.0) as i32`. -/
def scanKey (sqrtF : SF → SF) (fwd : V3) (x : ℕ × V3 × SF) : ℤ :=
  SF.toI32 (((x.2.1.dot fwd).div (sqrtF x.2.2)).mul (SF.num 100))

/-- Rust's `Iterator::max_by_key`: maximum by key, and when several elements
are equally maximal the last one is returned. -/
def maxByKey (key : α → ℤ) : List α → Option α
  | [] => none
  | x :: xs =>
    match maxByKey key xs with
    | none => some x
    | some y => if key y < key x then some x else some y

/-- The candidate scan of `select_target` (src/aiming.rs lines 78-101): rank
the pool by `scanKey` and return the winning entity, if any. -/
def select_scan (sqrtF : SF → SF) (fwd origin : V3) (ownVel : Option V3)
    (ownFr : Option Fraction) (targets : List Candidate) : Option ℕ :=
  (maxByKey (scanKey sqrtF fwd) (scan_pool sqrtF origin ownVel ownFr targets)).map
    fun x => x.1

/-- Model of `Query::contains` on the `targets` query: the entity occurs among the
candidates. -/
def containsEntity (targets : List Candidate) (e : ℕ) : Bool :=
  targets.any fun c => c.entity == e

/-- The per-actor body of `select_target` (src/aiming.rs lines 72-102): if
the locked target is still contained in the (collidable, non-sensor) query,
the slot is kept as is; otherwise the scan result is written. -/
def select_target_step (sqrtF : SF → SF) (fwd origin : V3) (ownVel : Option V3)
    (ownFr : Option Fraction) (locked : Option ℕ) (targets : List Candidate) :
    Option ℕ :=
  if (match locked with
      | some t => containsEntity targets t
      | none => false) then
    locked
  else select_scan sqrtF fwd origin ownVel ownFr targets

/-- The `GunLayer` component (src/aiming.rs lines 5-11). -/
structure GunLayerS where
  target : Option ℕ
  axis : V3
  angle : SF
  distance : SF
deriving DecidableEq, Repr

/-- The lead-compensated vector computed by `gun_layer` (src/aiming.rs lines
121-125) once the target lookup succeeded. -/
def gl_to_target (sqrtF : SF → SF) (translation : V3) (ownVel : Option V3)
    (targetPos : V3) (targetVel : Option V3) : V3 :=
  aiming_vector sqrtF translation targetPos
    (V3.sub (targetVel.getD V3.zero) (ownVel.getD V3.zero))

/-- Computation `distance = to_target.length()` in `gun_layer` (src/aiming.rs line 126). -/
def gl_distance (sqrtF : SF → SF) (translation : V3) (ownVel : Option V3)
    (targetPos : V3) (targetVel : Option V3) : SF :=
  V3.length sqrtF (gl_to_target sqrtF translation ownVel targetPos targetVel)

/-- Computation `direction = to_target * distance.recip()` in `gun_layer` (src/aiming.rs
line 127) — the unguarded normalization. -/
def gl_direction (sqrtF : SF → SF) (translation : V3) (ownVel : Option V3)
    (targetPos : V3) (targetVel : Option V3) : V3 :=
  (gl_to_target sqrtF translation ownVel targetPos targetVel).smul
    (gl_distance sqrtF translation ownVel targetPos targetVel).recip

/-- The per-actor body of `gun_layer` (src/aiming.rs lines 110-133).
`lookup` is the result of `gun_layer.target.and_then(|e| targets.get(e))`;
`rotArc` stands for `Quat::from_rotation_arc(forward, direction)
.to_axis_angle()` of the external math library, taken as a parameter. -/
def gun_layer_step (sqrtF : SF → SF) (rotArc : V3 → V3 → V3 × SF)
    (translation fwd : V3) (ownVel : Option V3)
    (lookup : Option (V3 × Option V3)) (g : GunLayerS) : GunLayerS :=
  match lookup with
  | none => { g with angle := SF.num 0, distance := SF.num 0 }
  | some (targetPos, targetVel) =>
    let (axis, angle) :=
      rotArc fwd (gl_direction sqrtF translation ownVel targetPos targetVel)
    { g with
        distance := gl_distance sqrtF translation ownVel targetPos targetVel
        axis := axis
        angle := angle }

/-- The fire threshold of the gun-layer systems (src/turret.rs lines 185-190
and src/drone.rs lines 174-179): `if distance > 100.0 { 10.0 / distance }
else { 0.3 }`. -/
def fire_threshold (distance : SF) : SF :=
  if SF.lt (SF.num 100) distance then (SF.num 10).div distance
  else SF.num (3 / 10)

/-- The fire decision (src/turret.rs line 191, src/drone.rs line 180): the
trigger is pulled exactly when `angle < threshold`. -/
def fire_decision (angle distance : SF) : Bool :=
  SF.lt angle (fire_threshold distance)

/-- The trigger pulls of the drone's `gun_layer` (src/drone.rs lines
180-186): when the fire decision holds, every owned gun's trigger is pulled
(`Trigger::pull` sets `is_pulled = true`); otherwise all triggers are left
unchanged. -/
def fire_signals (angle distance : SF) (guns : List Bool) : List Bool :=
  if fire_decision angle distance then guns.map fun _ => true else guns

/-- The operations of the engine's `Timer` that `check_trigger` uses
(external library type, kept abstract): tick by a duration, pause state,
pause/unpause, reset, duration, and the `just_finished` flag. -/
structure TimerOps (α : Type) where
  tick : α → ℚ → α
  paused : α → Bool
  unpause : α → α
  pause : α → α
  reset : α → α
  duration : α → ℚ
  just_finished : α → Bool

/-- The per-gun body of `check_trigger` (src/gun.rs lines 39-56): tick the
rate-of-fire timer; if the trigger is pulled, consume it (set `is_pulled`
back to `false`) and restart a paused timer; otherwise pause the timer once
it just finished.  Returns the new `is_pulled` flag and timer state. -/
def check_trigger_step (ops : TimerOps α) (delta : ℚ) (trigger : Bool)
    (timer : α) : Bool × α :=
  let t1 := ops.tick timer delta
  if trigger then
    let t2 :=
      if ops.paused t1 then ops.tick (ops.unpause t1) (ops.duration t1)
      else t1
    (false, t2)
  else if ops.just_finished t1 then (false, ops.pause (ops.reset t1))
  else (false, t1)

/-- The whole `check_trigger` system: the per-gun body applied to every
`(Trigger, Gun)` pair of the query. -/
def check_trigger_sys (ops : TimerOps α) (delta : ℚ)
    (guns : List (Bool × α)) : List (Bool × α) :=
  guns.map fun g => check_trigger_step ops delta g.1 g.2

/-- The forward direction used by the concrete evaluations: the unit vector
along `x`. -/
def fwd0 : V3 := ⟨SF.num 1, SF.num 0, SF.num 0⟩

/-- Rotation oracle used by the concrete evaluations: it realizes the
rotation library's guarded fallback on an all-NaN direction (glam 0.22:
`from_rotation_arc` on a NaN input gives an all-NaN quaternion, whose
`to_axis_angle` fails the `length >= EPSILON` test and returns
`(Vec3::X, 0.0)`), and is pass-through elsewhere. -/
def rotArc0 : V3 → V3 → V3 × SF := fun _ v =>
  if v = ⟨SF.nan, SF.nan, SF.nan⟩ then
    (⟨SF.num 1, SF.num 0, SF.num 0⟩, SF.num 0)
  else (v, SF.num 0)

/-- Trivial timer-state interpretation, used to instantiate the abstract
timer operations in a concrete evaluation. -/
def trivTimerOps : TimerOps Unit where
  tick := fun a _ => a
  paused := fun _ => false
  unpause := id
  pause := id
  reset := id
  duration := fun _ => 0
  just_finished := fun _ => false

namespace SF

theorem add_num (a b : ℚ) : add (num a) (num b) = num (a + b) := rfl

theorem neg_num (a : ℚ) : neg (num a) = num (-a) := rfl

theorem sub_num (a b : ℚ) : sub (num a) (num b) = num (a + -b) := rfl

theorem mul_num (a b : ℚ) : mul (num a) (num b) = num (a * b) := rfl

theorem lt_num (a b : ℚ) : lt (num a) (num b) = decide (a < b) := rfl

theorem le_num (a b : ℚ) : le (num a) (num b) = decide (a ≤ b) := rfl

theorem isFinite_iff {a : SF} : a.isFinite = true ↔ ∃ q, a = num q := by
  cases a <;> simp [isFinite]

theorem add_finite {a b : SF} (ha : a.isFinite = true) (hb : b.isFinite = true) :
    (add a b).isFinite = true := by
  cases a <;> cases b <;> simp_all [isFinite, add]

theorem neg_finite {a : SF} (ha : a.isFinite = true) :
    (neg a).isFinite = true := by
  cases a <;> simp_all [isFinite, neg]

theorem sub_finite {a b : SF} (ha : a.isFinite = true) (hb : b.isFinite = true) :
    (sub a b).isFinite = true :=
  add_finite ha (neg_finite hb)

theorem mul_finite {a b : SF} (ha : a.isFinite = true) (hb : b.isFinite = true) :
    (mul a b).isFinite = true := by
  cases a <;> cases b <;> simp_all [isFinite, mul]

end SF

namespace V3

theorem subV_finite {a b : V3} (ha : a.isFinite = true) (hb : b.isFinite = true) :
    (sub a b).isFinite = true := by
  obtain ⟨ax, ay, az⟩ := a
  obtain ⟨bx, by', bz⟩ := b
  simp only [isFinite, Bool.and_eq_true] at ha hb ⊢
  exact ⟨⟨SF.sub_finite ha.1.1 hb.1.1, SF.sub_finite ha.1.2 hb.1.2⟩,
    SF.sub_finite ha.2 hb.2⟩

theorem dot_finite {a b : V3} (ha : a.isFinite = true) (hb : b.isFinite = true) :
    (dot a b).isFinite = true := by
  obtain ⟨ax, ay, az⟩ := a
  obtain ⟨bx, by', bz⟩ := b
  simp only [isFinite, Bool.and_eq_true] at ha hb
  exact SF.add_finite
    (SF.add_finite (SF.mul_finite ha.1.1 hb.1.1) (SF.mul_finite ha.1.2 hb.1.2))
    (SF.mul_finite ha.2 hb.2)

theorem length_squared_finite {a : V3} (ha : a.isFinite = true) :
    a.length_squared.isFinite = true := dot_finite ha ha

end V3

theorem maxByKey_cons_ne_none {α : Type} (key : α → ℤ) (a : α) (l : List α) :
    maxByKey key (a :: l) ≠ none := by
  rw [maxByKey]
  cases maxByKey key l with
  | none => simp
  | some y => simp only; split <;> simp

theorem maxByKey_mem {α : Type} (key : α → ℤ) :
    ∀ {l : List α} {x : α}, maxByKey key l = some x → x ∈ l := by
  intro l
  induction l with
  | nil => intro x h; simp [maxByKey] at h
  | cons a l ih =>
    intro x h
    rw [maxByKey] at h
    cases hm : maxByKey key l with
    | none =>
      rw [hm] at h
      simp only [Option.some.injEq] at h
      subst h
      exact List.mem_cons_self _ _
    | some y =>
      rw [hm] at h
      simp only at h
      by_cases hlt : key y < key a
      · rw [if_pos hlt] at h
        cases h
        exact List.mem_cons_self _ _
      · rw [if_neg hlt] at h
        cases h
        exact List.mem_cons_of_mem _ (ih hm)

theorem maxByKey_le {α : Type} (key : α → ℤ) :
    ∀ {l : List α} {x : α}, maxByKey key l = some x →
      ∀ y ∈ l, key y ≤ key x := by
  intro l
  induction l with
  | nil => intro x h; simp [maxByKey] at h
  | cons a l ih =>
    intro x h y hy
    rw [maxByKey] at h
    rcases List.mem_cons.1 hy with rfl | hyl
    · cases hm : maxByKey key l with
      | none =>
        rw [hm] at h
        simp only [Option.some.injEq] at h
        subst h
        exact le_refl _
      | some z =>
        rw [hm] at h
        simp only at h
        by_cases hlt : key z < key y
        · rw [if_pos hlt] at h
          cases h
          exact le_refl _
        · rw [if_neg hlt] at h
          cases h
          exact le_of_not_lt hlt
    · cases hm : maxByKey key l with
      | none =>
        cases l with
        | nil => simp at hyl
        | cons b l' => exact absurd hm (maxByKey_cons_ne_none key b l')
      | some z =>
        have hz := ih hm y hyl
        rw [hm] at h
        simp only at h
        by_cases hlt : key z < key a
        · rw [if_pos hlt] at h
          cases h
          exact le_trans hz (le_of_lt hlt)
        · rw [if_neg hlt] at h
          cases h
          exact hz

theorem mem_scan_pool {sqrtF : SF → SF} {origin : V3} {ownVel : Option V3}
    {ownFr : Option Fraction} {targets : List Candidate} {x : ℕ × V3 × SF}
    (h : x ∈ scan_pool sqrtF origin ownVel ownFr targets) :
    ∃ c ∈ targets, fractionPass ownFr c.fraction = true ∧ x.1 = c.entity := by
  simp only [scan_pool, List.mem_filter, List.mem_map] at h
  obtain ⟨⟨c, ⟨hct, hcf⟩, hcx⟩, -⟩ := h
  exact ⟨c, hct, hcf, by rw [← hcx]⟩

/-- C10: after the trigger-processing system `check_trigger` runs, every gun
trigger's `is_pulled` flag is `false`, for every timer interpretation, every
tick delta and every prior gun state: a fire signal raised by
`Trigger::pull` is consumed within the tick and never persists. -/
theorem check_trigger_clears_all_triggers {α : Type} (ops : TimerOps α)
    (delta : ℚ) (guns : List (Bool × α)) :
    ∀ g ∈ check_trigger_sys ops delta guns, g.1 = false := by
  intro g hg
  simp only [check_trigger_sys, List.mem_map] at hg
  obtain ⟨p, -, rfl⟩ := hg
  rw [check_trigger_step]
  split
  · rfl
  · split <;> rfl

/-- C10 witness: a pulled trigger on a concrete (trivial) timer state is
cleared by the system. -/
theorem check_trigger_clears_all_triggers_witness :
    ((false, ()) : Bool × Unit).1 = false :=
  check_trigger_clears_all_triggers trivTimerOps 1 [(true, ())] (false, ())
    (by simp [check_trigger_sys, check_trigger_step, trivTimerOps])

/-- C1 (failing input): with `projectile_speed = 100`, a target at distance
100 straight ahead moving directly away with relative speed exactly 100
(leading coefficient of the quadratic is zero), `aiming_vector` divides by
zero: `first_root = (b + sqrt(b²))/0 = +∞`, the `first_root > 0.0` branch
accepts it, and the returned vector is `(+∞, NaN, NaN)` instead of the raw
offset `(100, 0, 0)` that the spec's guard mandates. -/
theorem aiming_vector_equal_speed_overflow :
    aiming_vector sqrtF0 V3.zero ⟨SF.num 100, SF.num 0, SF.num 0⟩
        ⟨SF.num 100, SF.num 0, SF.num 0⟩ = ⟨SF.pinf, SF.nan, SF.nan⟩ ∧
    V3.sub ⟨SF.num 100, SF.num 0, SF.num 0⟩ V3.zero =
      ⟨SF.num 100, SF.num 0, SF.num 0⟩ := by
  constructor <;>
    norm_num [aiming_vector, interceptTime, V3.zero, V3.sub, V3.add, V3.smul,
      V3.dot, V3.length_squared, SF.add, SF.sub, SF.neg, SF.mul, SF.div,
      SF.le, SF.lt, SF.fmin, sqrtF0, sqrtT]

/-- Auxiliary observation: with a locked target positioned exactly at the
actor's translation (zero velocities), the aim vector is zero,
`distance = 0`, and the unguarded normalization
`direction = to_target * distance.recip() = 0 * ∞` produces a transient
all-NaN direction vector — the value handed to the rotation library, whose
epsilon-guarded axis-angle extraction then masks it into the idle fallback
`(Vec3::X, 0.0)`. -/
theorem gun_layer_zero_distance_nan :
    gl_distance sqrtF0 V3.zero none V3.zero none = SF.num 0 ∧
    gl_direction sqrtF0 V3.zero none V3.zero none =
      ⟨SF.nan, SF.nan, SF.nan⟩ := by
  constructor <;>
    norm_num [gl_direction, gl_distance, gl_to_target, aiming_vector,
      interceptTime, V3.zero, V3.sub, V3.add, V3.smul, V3.dot, V3.length,
      V3.length_squared, SF.add, SF.sub, SF.neg, SF.mul, SF.div, SF.recip,
      SF.le, SF.lt, SF.fmin, sqrtF0, sqrtT, Option.getD]

/-- C8 (counterexample): at distance 50 the fire threshold of the gun-layer
systems is the constant floor `0.3`, not `10/50 = 0.2` as the claim states
(the `10.0/distance` formula only applies when `distance > 100`). -/
theorem fire_threshold_at_50_not_02 :
    fire_threshold (SF.num 50) = SF.num (3 / 10) ∧
    fire_threshold (SF.num 50) ≠ SF.num (1 / 5) := by
  constructor <;> norm_num [fire_threshold, SF.lt]

/-- C8 (amended): the fire threshold equals `10/distance` only for
`distance > 100` and equals the constant `0.3` otherwise; with a locked
target the guns are signalled exactly when `angle < threshold`, so at
distance 50 an angle of `0.1` rad pulls every owned gun's trigger and an
angle of `0.3` rad leaves all triggers unchanged. -/
theorem fire_threshold_and_signals :
    (∀ d : ℚ, 100 < d → fire_threshold (SF.num d) = SF.num (10 / d)) ∧
    fire_threshold (SF.num 50) = SF.num (3 / 10) ∧
    (∀ guns : List Bool,
      fire_signals (SF.num (1 / 10)) (SF.num 50) guns = guns.map fun _ => true) ∧
    (∀ guns : List Bool,
      fire_signals (SF.num (3 / 10)) (SF.num 50) guns = guns) := by
  refine ⟨fun d hd => ?_, by norm_num [fire_threshold, SF.lt], fun guns => ?_,
    fun guns => ?_⟩
  · have hne : d ≠ 0 := by linarith
    simp [fire_threshold, SF.lt, SF.div, hd, hne]
  · norm_num [fire_signals, fire_decision, fire_threshold, SF.lt]
  · norm_num [fire_signals, fire_decision, fire_threshold, SF.lt]

/-- C8 witness: the amended threshold formula evaluated at distance 200. -/
theorem fire_threshold_and_signals_witness :
    fire_threshold (SF.num 200) = SF.num (10 / 200) :=
  fire_threshold_and_signals.1 200 (by norm_num)

/-- C5: an actor that already holds a locked target which still passes the
eligibility filter (present in the collidable non-sensor candidate query,
passing the faction filter, with a non-zero lead-compensated aim vector)
keeps that exact lock when the selector runs again: the slot is returned
unchanged without consulting the candidate scan, whatever the other
candidates score. -/
theorem select_target_stickiness (sqrtF : SF → SF) (fwd origin : V3)
    (ownVel : Option V3) (ownFr : Option Fraction) (t : ℕ)
    (targets : List Candidate)
    (h : ∃ c ∈ targets, c.entity = t ∧ fractionPass ownFr c.fraction = true ∧
      SF.lt (SF.num 0) (candAim sqrtF origin ownVel c).length_squared = true) :
    select_target_step sqrtF fwd origin ownVel ownFr (some t) targets =
      some t := by
  obtain ⟨c, hct, hce, -, -⟩ := h
  have hc : containsEntity targets t = true := by
    simp only [containsEntity, List.any_eq_true]
    exact ⟨c, hct, by simp [hce]⟩
  simp [select_target_step, hc]

/-- C5 witness: a drone actor locked on a turret-faction candidate at
`(2,3,6)` keeps the lock. -/
theorem select_target_stickiness_witness :
    select_target_step sqrtF0 fwd0 V3.zero none (some Fraction.Drones) (some 3)
      [⟨3, ⟨SF.num 2, SF.num 3, SF.num 6⟩, none, some Fraction.Turrets⟩] =
    some 3 :=
  select_target_stickiness sqrtF0 fwd0 V3.zero none (some Fraction.Drones) 3
    [⟨3, ⟨SF.num 2, SF.num 3, SF.num 6⟩, none, some Fraction.Turrets⟩]
    ⟨⟨3, ⟨SF.num 2, SF.num 3, SF.num 6⟩, none, some Fraction.Turrets⟩,
      List.mem_singleton.2 rfl, rfl, by simp [fractionPass],
      by norm_num [candAim, aiming_vector, interceptTime, V3.zero, V3.sub,
        V3.add, V3.smul, V3.dot, V3.length_squared, SF.add, SF.sub, SF.neg,
        SF.mul, SF.div, SF.le, SF.lt, SF.fmin, sqrtF0, sqrtT, Option.getD]⟩

/-- C6 (counterexample): an actor of faction `Drones` locked on entity 5,
which is still present in the candidate query but now carries the same
faction `Drones`, retains the lock — the per-tick recheck is only query
membership, even though a fresh scan of the same state would reject the
candidate and select nothing. -/
theorem select_target_retains_same_faction_lock :
    select_target_step sqrtF0 fwd0 V3.zero none (some Fraction.Drones) (some 5)
        [⟨5, ⟨SF.num 2, SF.num 3, SF.num 6⟩, none, some Fraction.Drones⟩] =
      some 5 ∧
    select_scan sqrtF0 fwd0 V3.zero none (some Fraction.Drones)
        [⟨5, ⟨SF.num 2, SF.num 3, SF.num 6⟩, none, some Fraction.Drones⟩] =
      none := by
  constructor
  · simp [select_target_step, containsEntity]
  · simp [select_scan, scan_pool, fractionPass, maxByKey]

/-- C6 (amended): the per-tick revalidation of a lock checks only membership
in the collidable non-sensor candidate query; whenever the locked slot is
empty or its entity is absent from that query, the selector performs the
fresh candidate scan and writes its result (or none), while faction and
non-zero-aim-vector eligibility are enforced only during the scan itself. -/
theorem select_target_rescan_on_missing (sqrtF : SF → SF) (fwd origin : V3)
    (ownVel : Option V3) (ownFr : Option Fraction) (locked : Option ℕ)
    (targets : List Candidate)
    (h : locked = none ∨
      ∃ t, locked = some t ∧ containsEntity targets t = false) :
    select_target_step sqrtF fwd origin ownVel ownFr locked targets =
      select_scan sqrtF fwd origin ownVel ownFr targets := by
  rcases h with rfl | ⟨t, rfl, ht⟩
  · simp [select_target_step]
  · simp [select_target_step, ht]

/-- C6 witness: a dangling lock on entity 9 is dropped in favour of the scan
result. -/
theorem select_target_rescan_on_missing_witness :
    select_target_step sqrtF0 fwd0 V3.zero none none (some 9) [] =
      select_scan sqrtF0 fwd0 V3.zero none none [] :=
  select_target_rescan_on_missing sqrtF0 fwd0 V3.zero none none (some 9) []
    (Or.inr ⟨9, rfl, by simp [containsEntity]⟩)

/-- C7: whatever the candidate scan selects comes from a candidate that
passed the faction filter, so an actor/candidate pair carrying the same
non-null faction tag is never written into the locked-target slot by the
scan; and the filter lets every pair through in which either side has no
faction tag. -/
theorem select_scan_faction_filter :
    (∀ (sqrtF : SF → SF) (fwd origin : V3) (ownVel : Option V3)
        (ownFr : Option Fraction) (targets : List Candidate) (e : ℕ),
        select_scan sqrtF fwd origin ownVel ownFr targets = some e →
        ∃ c ∈ targets, c.entity = e ∧
          ¬∃ f, ownFr = some f ∧ c.fraction = some f) ∧
    (∀ fr : Option Fraction,
        fractionPass none fr = true ∧ fractionPass fr none = true) := by
  constructor
  · intro sqrtF fwd origin ownVel ownFr targets e h
    simp only [select_scan, Option.map_eq_some'] at h
    obtain ⟨x, hx, hxe⟩ := h
    obtain ⟨c, hct, hcf, hce⟩ := mem_scan_pool (maxByKey_mem _ hx)
    refine ⟨c, hct, by rw [← hxe, hce], ?_⟩
    rintro ⟨f, rfl, hcfr⟩
    rw [hcfr] at hcf
    simp [fractionPass] at hcf
  · intro fr
    cases fr <;> simp [fractionPass]

/-- C7 witness: a drone actor scanning a single turret-faction candidate
selects it, and the selected candidate indeed does not share the actor's
faction. -/
theorem select_scan_faction_filter_witness :
    ∃ c ∈ [(⟨1, ⟨SF.num 2, SF.num 3, SF.num 6⟩, none,
        some Fraction.Turrets⟩ : Candidate)], c.entity = 1 ∧
      ¬∃ f, (some Fraction.Drones : Option Fraction) = some f ∧
        c.fraction = some f :=
  select_scan_faction_filter.1 sqrtF0 fwd0 V3.zero none (some Fraction.Drones)
    [⟨1, ⟨SF.num 2, SF.num 3, SF.num 6⟩, none, some Fraction.Turrets⟩] 1
    (by
      have haim : candAim sqrtF0 V3.zero none
          ⟨1, ⟨SF.num 2, SF.num 3, SF.num 6⟩, none, some Fraction.Turrets⟩ =
          ⟨SF.num 2, SF.num 3, SF.num 6⟩ := by
        norm_num [candAim, aiming_vector, interceptTime, V3.zero, V3.sub,
          V3.add, V3.smul, V3.dot, V3.length_squared, SF.add, SF.sub, SF.neg,
          SF.mul, SF.div, SF.le, SF.lt, SF.fmin, sqrtF0, sqrtT, Option.getD]
      have hpool : scan_pool sqrtF0 V3.zero none (some Fraction.Drones)
          [⟨1, ⟨SF.num 2, SF.num 3, SF.num 6⟩, none, some Fraction.Turrets⟩] =
          [(1, ⟨SF.num 2, SF.num 3, SF.num 6⟩,
            (⟨SF.num 2, SF.num 3, SF.num 6⟩ : V3).length_squared)] := by
        have hQ : fractionPass (some Fraction.Drones)
            (some Fraction.Turrets) = true := by simp [fractionPass]
        simp only [scan_pool]
        simp only [List.filter_cons, List.filter_nil, List.map_cons,
          List.map_nil, hQ, if_true, haim]
        norm_num [V3.length_squared, V3.dot, SF.mul, SF.add, SF.lt]
      rw [select_scan, hpool]
      rfl)

theorem floor_200_div_7 : (⌊(200 : ℚ) / 7⌋ : ℤ) = 28 := by
  norm_num [Int.floor_eq_iff]

theorem floor_2400_div_85 : (⌊(2400 : ℚ) / 85⌋ : ℤ) = 28 := by
  norm_num [Int.floor_eq_iff]

theorem select_scan_pair :
    select_scan sqrtF0 fwd0 V3.zero none none
      [⟨1, ⟨SF.num 2, SF.num 3, SF.num 6⟩, none, none⟩,
        ⟨2, ⟨SF.num 24, SF.num 32, SF.num 75⟩, none, none⟩] = some 2 := by
  have haim1 : candAim sqrtF0 V3.zero none
      ⟨1, ⟨SF.num 2, SF.num 3, SF.num 6⟩, none, none⟩ =
      ⟨SF.num 2, SF.num 3, SF.num 6⟩ := by
    norm_num [candAim, aiming_vector, interceptTime, V3.zero, V3.sub, V3.add,
      V3.smul, V3.dot, V3.length_squared, SF.add, SF.sub, SF.neg, SF.mul,
      SF.div, SF.le, SF.lt, SF.fmin, sqrtF0, sqrtT, Option.getD]
  have haim2 : candAim sqrtF0 V3.zero none
      ⟨2, ⟨SF.num 24, SF.num 32, SF.num 75⟩, none, none⟩ =
      ⟨SF.num 24, SF.num 32, SF.num 75⟩ := by
    norm_num [candAim, aiming_vector, interceptTime, V3.zero, V3.sub, V3.add,
      V3.smul, V3.dot, V3.length_squared, SF.add, SF.sub, SF.neg, SF.mul,
      SF.div, SF.le, SF.lt, SF.fmin, sqrtF0, sqrtT, Option.getD]
  have hQ : fractionPass none none = true := by simp [fractionPass]
  have hpool : scan_pool sqrtF0 V3.zero none none
      [⟨1, ⟨SF.num 2, SF.num 3, SF.num 6⟩, none, none⟩,
        ⟨2, ⟨SF.num 24, SF.num 32, SF.num 75⟩, none, none⟩] =
      [(1, ⟨SF.num 2, SF.num 3, SF.num 6⟩, SF.num 49),
        (2, ⟨SF.num 24, SF.num 32, SF.num 75⟩, SF.num 7225)] := by
    simp only [scan_pool]
    simp only [List.filter_cons, List.filter_nil, List.map_cons,
      List.map_nil, hQ, if_true, haim1, haim2]
    norm_num [V3.length_squared, V3.dot, SF.mul, SF.add, SF.lt]
  have hk1 : scanKey sqrtF0 fwd0
      (1, ⟨SF.num 2, SF.num 3, SF.num 6⟩, SF.num 49) = 28 := by
    norm_num [scanKey, fwd0, V3.dot, SF.mul, SF.add, SF.div, SF.toI32,
      sqrtF0, sqrtT, floor_200_div_7]
  have hk2 : scanKey sqrtF0 fwd0
      (2, ⟨SF.num 24, SF.num 32, SF.num 75⟩, SF.num 7225) = 28 := by
    norm_num [scanKey, fwd0, V3.dot, SF.mul, SF.add, SF.div, SF.toI32,
      sqrtF0, sqrtT, floor_2400_div_85]
  rw [select_scan, hpool]
  simp only [maxByKey, hk1, hk2]
  norm_num

/-- C4 (counterexample): with the actor at the origin facing `+x` and two
candidates — entity 1 at `(2,3,6)` with raw score `2/7 ≈ 0.2857` and entity 2
at `(24,32,75)` with raw score `24/85 ≈ 0.2824` — both scores truncate to the
same integer key `⌊score·100⌋ = 28`, and the scan returns entity 2 (the last
maximal element of the iteration), although entity 1 has a strictly higher
score than every other candidate.  The "maximum score, only exact ties broken
by iteration order" contract is therefore violated. -/
theorem select_scan_higher_score_loses :
    select_scan sqrtF0 fwd0 V3.zero none none
        [⟨1, ⟨SF.num 2, SF.num 3, SF.num 6⟩, none, none⟩,
          ⟨2, ⟨SF.num 24, SF.num 32, SF.num 75⟩, none, none⟩] = some 2 ∧
    (24 : ℚ) / 85 < 2 / 7 :=
  ⟨select_scan_pair, by norm_num⟩

/-- C4 (amended): the candidate scan locks a candidate whose truncated
integer ranking key `(score · 100) as i32` is maximal over the eligible
pool; candidates whose keys collide (scores within the same `0.01` bucket)
may be resolved by iteration order, so only a maximal truncated key — not a
maximal raw score — is guaranteed for the chosen candidate. -/
theorem select_scan_max_truncated_key (sqrtF : SF → SF) (fwd origin : V3)
    (ownVel : Option V3) (ownFr : Option Fraction) (targets : List Candidate)
    (e : ℕ)
    (h : select_scan sqrtF fwd origin ownVel ownFr targets = some e) :
    ∃ x ∈ scan_pool sqrtF origin ownVel ownFr targets, x.1 = e ∧
      ∀ y ∈ scan_pool sqrtF origin ownVel ownFr targets,
        scanKey sqrtF fwd y ≤ scanKey sqrtF fwd x := by
  simp only [select_scan, Option.map_eq_some'] at h
  obtain ⟨x, hx, hxe⟩ := h
  exact ⟨x, maxByKey_mem _ hx, hxe, maxByKey_le _ hx⟩

/-- C4 witness: the two-candidate scan above selects entity 2, which indeed
carries a maximal truncated key in the pool. -/
theorem select_scan_max_truncated_key_witness :
    ∃ x ∈ scan_pool sqrtF0 V3.zero none none
        [⟨1, ⟨SF.num 2, SF.num 3, SF.num 6⟩, none, none⟩,
          ⟨2, ⟨SF.num 24, SF.num 32, SF.num 75⟩, none, none⟩],
      x.1 = 2 ∧
      ∀ y ∈ scan_pool sqrtF0 V3.zero none none
          [⟨1, ⟨SF.num 2, SF.num 3, SF.num 6⟩, none, none⟩,
            ⟨2, ⟨SF.num 24, SF.num 32, SF.num 75⟩, none, none⟩],
        scanKey sqrtF0 fwd0 y ≤ scanKey sqrtF0 fwd0 x :=
  select_scan_max_truncated_key sqrtF0 fwd0 V3.zero none none
    [⟨1, ⟨SF.num 2, SF.num 3, SF.num 6⟩, none, none⟩,
      ⟨2, ⟨SF.num 24, SF.num 32, SF.num 75⟩, none, none⟩] 2 select_scan_pair

theorem interceptTime_eq_spec (sqrtF : SF → SF) (origin target_pos relative_vel : V3)
    (ho : origin.isFinite = true) (ht : target_pos.isFinite = true)
    (hv : relative_vel.isFinite = true) :
    interceptTime sqrtF (V3.sub target_pos origin) relative_vel =
      specInterceptTime sqrtF origin target_pos relative_vel := by
  have hd : (V3.sub target_pos origin).isFinite = true := V3.subV_finite ht ho
  have hb : ((V3.sub target_pos origin).dot relative_vel).isFinite = true :=
    V3.dot_finite hd hv
  have h100 : (SF.num 100).isFinite = true := rfl
  have hssd : (((SF.num 100).mul (SF.num 100)).sub
      relative_vel.length_squared).isFinite = true :=
    SF.sub_finite (SF.mul_finite h100 h100) (V3.length_squared_finite hv)
  have hdisc : ((((V3.sub target_pos origin).dot relative_vel).mul
      ((V3.sub target_pos origin).dot relative_vel)).add
      ((((SF.num 100).mul (SF.num 100)).sub relative_vel.length_squared).mul
        ((V3.sub target_pos origin).length_squared))).isFinite = true :=
    SF.add_finite (SF.mul_finite hb hb)
      (SF.mul_finite hssd (V3.length_squared_finite hd))
  obtain ⟨E, hE⟩ := SF.isFinite_iff.1 hdisc
  simp only [interceptTime, specInterceptTime]
  rw [hE]
  simp only [SF.le_num, SF.lt_num, decide_eq_true_eq]
  rcases le_or_lt 0 E with h | h
  · rw [if_pos h, if_neg (not_lt.2 h)]
  · rw [if_neg (not_le.2 h), if_pos h]

/-- C2: for every finite input, `aiming_vector` returns
`(target_position - origin) + relative_velocity · t` where `t` is exactly
the spec's interception-time policy (`specInterceptTime`): `t = 0` on a
negative discriminant, otherwise the smallest strictly-positive of the two
quadratic roots, the single positive one, or `0` when neither is positive. -/
theorem aiming_vector_follows_spec_policy (sqrtF : SF → SF)
    (origin target_pos relative_vel : V3) (ho : origin.isFinite = true)
    (ht : target_pos.isFinite = true) (hv : relative_vel.isFinite = true) :
    aiming_vector sqrtF origin target_pos relative_vel =
      V3.add (V3.sub target_pos origin)
        (relative_vel.smul (specInterceptTime sqrtF origin target_pos relative_vel)) := by
  simp only [aiming_vector]
  rw [interceptTime_eq_spec sqrtF origin target_pos relative_vel ho ht hv]

/-- C2 witness: the equality instantiated at a concrete finite state. -/
theorem aiming_vector_follows_spec_policy_witness :
    aiming_vector sqrtF0 V3.zero ⟨SF.num 2, SF.num 3, SF.num 6⟩ V3.zero =
      V3.add (V3.sub ⟨SF.num 2, SF.num 3, SF.num 6⟩ V3.zero)
        (V3.zero.smul
          (specInterceptTime sqrtF0 V3.zero ⟨SF.num 2, SF.num 3, SF.num 6⟩
            V3.zero)) :=
  aiming_vector_follows_spec_policy sqrtF0 V3.zero
    ⟨SF.num 2, SF.num 3, SF.num 6⟩ V3.zero rfl rfl rfl

theorem add_smul_zero_time (d : V3) (hd : d.isFinite = true) (t : ℚ) :
    V3.add d (V3.zero.smul (SF.num t)) = d := by
  obtain ⟨x, y, z⟩ := d
  simp only [V3.isFinite, Bool.and_eq_true] at hd
  obtain ⟨⟨hx, hy⟩, hz⟩ := hd
  obtain ⟨a, rfl⟩ := SF.isFinite_iff.1 hx
  obtain ⟨b, rfl⟩ := SF.isFinite_iff.1 hy
  obtain ⟨c, rfl⟩ := SF.isFinite_iff.1 hz
  simp only [V3.zero, V3.smul, SF.mul_num, V3.add, SF.add_num]
  norm_num

theorem interceptTime_zero_rv_num (sqrtF : SF → SF) (d : V3)
    (hd : d.isFinite = true)
    (hs : ∀ q : ℚ, 0 ≤ q → ∃ r : ℚ, sqrtF (SF.num q) = SF.num r) :
    ∃ t : ℚ, interceptTime sqrtF d V3.zero = SF.num t := by
  obtain ⟨x, y, z⟩ := d
  simp only [V3.isFinite, Bool.and_eq_true] at hd
  obtain ⟨⟨hx, hy⟩, hz⟩ := hd
  obtain ⟨a, rfl⟩ := SF.isFinite_iff.1 hx
  obtain ⟨b, rfl⟩ := SF.isFinite_iff.1 hy
  obtain ⟨c, rfl⟩ := SF.isFinite_iff.1 hz
  simp only [interceptTime, V3.zero, V3.dot, V3.length_squared, SF.mul_num,
    SF.add_num, SF.sub_num]
  have hD : (0 : ℚ) ≤ (a * 0 + b * 0 + c * 0) * (a * 0 + b * 0 + c * 0) +
      (100 * 100 + -(0 * 0 + 0 * 0 + 0 * 0)) * (a * a + b * b + c * c) := by
    nlinarith [mul_self_nonneg a, mul_self_nonneg b, mul_self_nonneg c,
      mul_self_nonneg (a * 0 + b * 0 + c * 0)]
  obtain ⟨r, hr⟩ := hs _ hD
  rw [hr]
  have hS : (100 * 100 + -(0 * 0 + 0 * 0 + 0 * 0) : ℚ) ≠ 0 := by norm_num
  simp only [SF.le_num, decide_eq_true_eq]
  rw [if_pos hD]
  simp only [SF.add_num, SF.sub_num, SF.div]
  rw [if_neg hS, if_neg hS]
  simp only [SF.fmin, SF.lt_num]
  split_ifs <;> exact ⟨_, rfl⟩

/-- C9: with a zero relative velocity (static target), `aiming_vector`
returns exactly `target_position - origin`: no lead is applied, for every
finite origin and target position, whenever the square root of the (finite,
non-negative) discriminant is finite, as `f32::sqrt` is. -/
theorem aiming_vector_static_target (sqrtF : SF → SF)
    (origin target_pos : V3) (ho : origin.isFinite = true)
    (ht : target_pos.isFinite = true)
    (hs : ∀ q : ℚ, 0 ≤ q → ∃ r : ℚ, sqrtF (SF.num q) = SF.num r) :
    aiming_vector sqrtF origin target_pos V3.zero =
      V3.sub target_pos origin := by
  have hd : (V3.sub target_pos origin).isFinite = true := V3.subV_finite ht ho
  obtain ⟨t, htime⟩ := interceptTime_zero_rv_num sqrtF _ hd hs
  simp only [aiming_vector]
  rw [htime]
  exact add_smul_zero_time _ hd t

/-- C9 witness: a static target at `(3,4,0)` seen from the origin yields the
raw offset. -/
theorem aiming_vector_static_target_witness :
    aiming_vector sqrtF0 V3.zero ⟨SF.num 3, SF.num 4, SF.num 0⟩ V3.zero =
      V3.sub ⟨SF.num 3, SF.num 4, SF.num 0⟩ V3.zero :=
  aiming_vector_static_target sqrtF0 V3.zero ⟨SF.num 3, SF.num 4, SF.num 0⟩
    rfl rfl (fun q _ => ⟨sqrtT q, rfl⟩)

/-- C3: the Gun-Layer's idle behaviour, for every actor pose, velocity and
prior state.  If the locked target is absent or its per-tick lookup fails,
the step writes `angle = 0` and `distance = 0` (the no-target sentinel, axis
untouched).  If a target is present but the lead-compensated aim vector is
zero (so `distance == 0`), the step likewise ends idle — `distance = 0`,
`angle = 0`, axis the library's `Vec3::X` fallback — and never writes NaN
into axis, angle or distance.  `rotArc` stands for the external rotation
library's `from_rotation_arc(..).to_axis_angle()`; the hypothesis `hrot`
records its actual behaviour (glam 0.22) on the all-NaN direction that the
unguarded normalization `0 * recip 0` produces: the all-NaN quaternion fails
the `length >= EPSILON` test in `to_axis_angle`, which returns
`(Vec3::X, 0.0)`.  `hsq0` records `f32::sqrt(0) = 0`. -/
theorem gun_layer_idle_states (sqrtF : SF → SF) (rotArc : V3 → V3 → V3 × SF)
    (translation fwd : V3) (ownVel : Option V3) (g : GunLayerS)
    (hsq0 : sqrtF (SF.num 0) = SF.num 0)
    (hrot : ∀ u : V3, rotArc u ⟨SF.nan, SF.nan, SF.nan⟩ =
      (⟨SF.num 1, SF.num 0, SF.num 0⟩, SF.num 0)) :
    gun_layer_step sqrtF rotArc translation fwd ownVel none g =
      { g with angle := SF.num 0, distance := SF.num 0 } ∧
    ∀ (targetPos : V3) (targetVel : Option V3),
      gl_to_target sqrtF translation ownVel targetPos targetVel =
        ⟨SF.num 0, SF.num 0, SF.num 0⟩ →
      gun_layer_step sqrtF rotArc translation fwd ownVel
          (some (targetPos, targetVel)) g =
        { g with
            axis := ⟨SF.num 1, SF.num 0, SF.num 0⟩
            angle := SF.num 0
            distance := SF.num 0 } := by
  constructor
  · rfl
  · intro targetPos targetVel h0
    have hlsq : (⟨SF.num 0, SF.num 0, SF.num 0⟩ : V3).length_squared =
        SF.num 0 := by
      norm_num [V3.length_squared, V3.dot, SF.mul_num, SF.add_num]
    have hdist : gl_distance sqrtF translation ownVel targetPos targetVel =
        SF.num 0 := by
      simp only [gl_distance, V3.length]
      rw [h0, hlsq, hsq0]
    have hdir : gl_direction sqrtF translation ownVel targetPos targetVel =
        ⟨SF.nan, SF.nan, SF.nan⟩ := by
      simp only [gl_direction]
      rw [h0, hdist]
      norm_num [V3.smul, SF.recip, SF.div, SF.mul]
    simp only [gun_layer_step, hdir, hdist, hrot]

/-- C3 witness: an actor at the origin whose locked target sits exactly at
its own position ends the tick idle — distance 0, angle 0, axis the `X`
fallback — with no NaN stored. -/
theorem gun_layer_idle_states_witness :
    gun_layer_step sqrtF0 rotArc0 V3.zero fwd0 none (some (V3.zero, none))
        ⟨none, V3.zero, SF.num 0, SF.num 0⟩ =
      { (⟨none, V3.zero, SF.num 0, SF.num 0⟩ : GunLayerS) with
          axis := ⟨SF.num 1, SF.num 0, SF.num 0⟩
          angle := SF.num 0
          distance := SF.num 0 } :=
  (gun_layer_idle_states sqrtF0 rotArc0 V3.zero fwd0 none
      ⟨none, V3.zero, SF.num 0, SF.num 0⟩
      (by norm_num [sqrtF0, sqrtT])
      (fun u => rfl)).2 V3.zero none
    (by norm_num [gl_to_target, aiming_vector, interceptTime, V3.zero,
      V3.sub, V3.add, V3.smul, V3.dot, V3.length_squared, SF.add, SF.sub,
      SF.neg, SF.mul, SF.div, SF.le, SF.lt, SF.fmin, sqrtF0, sqrtT,
      Option.getD])
